import Mathlib

/-!
# fluvia, package `packet`: the frame decoder `Parse`

A shallow embedding of `pkg/packet/parse.go`.  `Parse` turns one captured
link-layer frame into a `ProbeData` record by asking the decoded packet for its
Ethernet, IPv6 and SRv6 layers, in that order.

Byte buffers are lists of naturals (each below 256 in a real buffer).  A Go
result `(*ProbeData, error)` is a pair of options: `none` is Go's `nil`.
-/

namespace Fluvia

/-! ## Go standard library: textual forms of addresses -/

/-- Go's `net.HardwareAddr`: a byte slice. -/
abbrev HardwareAddr := List Nat

/-- Go's `net.IP`: a byte slice (4 or 16 bytes when well formed). -/
abbrev IP := List Nat

/-- The table `hexDigit = "0123456789abcdef"` of package `net`. -/
def hexDigit (n : Nat) : Char := "0123456789abcdef".data.getD n '0'

/-- Two hexadecimal digits of one byte: `hexDigit[b>>4]`, `hexDigit[b&0xF]`. -/
def hexByte (b : Nat) : List Char := [hexDigit (b / 16 % 16), hexDigit (b % 16)]

/-- The loop of `net.HardwareAddr.String`: bytes in hexadecimal, a colon before
every byte but the first. -/
def hardwareAddrChars : Bool → List Nat → List Char
  | _, [] => []
  | first, b :: rest =>
    (if first then [] else [':']) ++ hexByte b ++ hardwareAddrChars false rest

/-- Go's `net.HardwareAddr.String`: the empty string for an empty address,
otherwise colon-separated hexadecimal bytes. -/
def HardwareAddr.String (a : HardwareAddr) : String :=
  if a.length = 0 then "" else String.mk (hardwareAddrChars true a)

/-- Go's `net.IP.To4`: the 4-byte form of an IPv4 or IPv4-mapped address. -/
def IP.To4 (ip : IP) : Option (List Nat) :=
  if ip.length = 4 then some ip
  else if ip.length = 16 ∧ (ip.take 10).all (fun b => b == 0) ∧ ip.getD 10 0 = 255
      ∧ ip.getD 11 0 = 255 then some (ip.drop 12)
  else none

/-- Go's `appendHex`: hexadecimal without leading zeros, "0" for zero. -/
def appendHex (dst : List Char) (i : Nat) : List Char :=
  if i = 0 then dst ++ ['0']
  else dst ++ ([7, 6, 5, 4, 3, 2, 1, 0] : List Nat).filterMap
    (fun j => if i / 16 ^ j > 0 then some (hexDigit (i / 16 ^ j % 16)) else none)

/-- The inner loop of `net.IP.String`: the end `j` of the run of zero 16-bit
groups starting at byte index `j`.  The first argument bounds the number of
steps; eight are enough (`zeroRunEnd_fuel`). -/
def zeroRunEnd (p : List Nat) : Nat → Nat → Nat
  | 0, j => j
  | fuel + 1, j =>
    if j < 16 ∧ p.getD j 0 = 0 ∧ p.getD (j + 1) 0 = 0 then zeroRunEnd p fuel (j + 2) else j

/-- The outer loop of `net.IP.String` that finds the first longest run of zero
groups; `best` is `(e0, e1)`, `none` standing for `(-1, -1)`.  The first
argument bounds the number of steps; eight are enough (`findZeroRun_fuel`). -/
def findZeroRun (p : List Nat) : Nat → Nat → Option (Nat × Nat) → Option (Nat × Nat)
  | 0, _, best => best
  | fuel + 1, i, best =>
    if i < 16 then
      let j := zeroRunEnd p 8 i
      let len := match best with
        | none => 0
        | some (e0, e1) => e1 - e0
      if j > i ∧ j - i > len then findZeroRun p fuel (j + 2) (some (i, j))
      else findZeroRun p fuel (i + 2) best
    else best

/-- The 16-bit group `p[i]<<8 | p[i+1]`. -/
def group16 (p : List Nat) (i : Nat) : Nat := p.getD i 0 * 256 + p.getD (i + 1) 0

/-- The printing loop of `net.IP.String`: groups in hexadecimal separated by
colons, the zero run `run` replaced by `::`.  The first argument bounds the
number of steps; eight are enough (`printGroups_fuel`). -/
def printGroups (p : List Nat) (run : Option (Nat × Nat)) : Nat → Nat → List Char → List Char
  | 0, _, b => b
  | fuel + 1, i, b =>
    if i < 16 then
      match run with
      | some (e0, e1) =>
        if i = e0 then
          if e1 ≥ 16 then b ++ [':', ':']
          else printGroups p run fuel (e1 + 2) (appendHex (b ++ [':', ':']) (group16 p e1))
        else
          printGroups p run fuel (i + 2)
            (appendHex (if i > 0 then b ++ [':'] else b) (group16 p i))
      | none =>
        printGroups p run fuel (i + 2)
          (appendHex (if i > 0 then b ++ [':'] else b) (group16 p i))
    else b

/-- Dotted decimal of an IPv4 address (Go's `ubtoa` on each of the 4 bytes). -/
def dotted (p4 : List Nat) : List Char :=
  Nat.toDigits 10 (p4.getD 0 0) ++ ['.'] ++ Nat.toDigits 10 (p4.getD 1 0) ++ ['.']
    ++ Nat.toDigits 10 (p4.getD 2 0) ++ ['.'] ++ Nat.toDigits 10 (p4.getD 3 0)

/-- Go's `hexString`: two hexadecimal digits per byte. -/
def hexString (b : List Nat) : List Char := (b.map hexByte).flatten

/-- The characters of Go's `net.IP.String`. -/
def ipChars (ip : IP) : List Char :=
  if ip.length = 0 then ['<', 'n', 'i', 'l', '>']
  else match IP.To4 ip with
    | some p4 => dotted p4
    | none =>
      if ip.length ≠ 16 then '?' :: hexString ip
      else
        let run := match findZeroRun ip 8 0 none with
          | some (e0, e1) => if e1 - e0 ≤ 2 then none else some (e0, e1)
          | none => none
        printGroups ip run 8 0 []

/-- Go's `net.IP.String`: `<nil>` for an empty slice, dotted decimal for an IPv4
or IPv4-mapped address, `?` and the hexadecimal bytes for another length, and
otherwise the IPv6 text with the first longest run of two or more zero groups
written `::`. -/
def IP.String (ip : IP) : String := String.mk (ipChars ip)

/-! ## The decoded packet (package `gopacket`) -/

/-- The fields of gopacket's `layers.Ethernet` that `Parse` reads. -/
structure Ethernet where
  SrcMAC : HardwareAddr
  DstMAC : HardwareAddr
  deriving DecidableEq, Repr

/-- The fields of gopacket's `layers.IPv6` that `Parse` reads. -/
structure IPv6 where
  SrcIP : IP
  DstIP : IP
  deriving DecidableEq, Repr

/-- Modelled from the spec: the layer type `bpf.Srv6Layer`, declared in package
`bpf`, which is not among the source files.  Its fields are those `Parse` reads:
the 8-byte fixed part of the Segment Routing Header (seven fields, the first six
of 8 bits and `Tag` of 16) and the segment list, one IPv6 address per segment. -/
structure Srv6Layer where
  NextHeader : Nat
  HdrExtLen : Nat
  RoutingType : Nat
  SegmentsLeft : Nat
  LastEntry : Nat
  Flags : Nat
  Tag : Nat
  Segments : List IP
  deriving DecidableEq, Repr

/-- One decoded layer of a packet: Ethernet, IPv6, SRv6, or a layer of another
type (identified by its layer-type number). -/
inductive Layer where
  | ethernet (eth : Ethernet)
  | ipv6 (ip : IPv6)
  | srv6 (srh : Srv6Layer)
  | other (layerType : Nat)
  deriving DecidableEq, Repr

/-- A decoded packet: its layers, outermost first. -/
abbrev Packet := List Layer

/-- The call `packet.Layer(layers.LayerTypeEthernet)` followed by the type
assertion to `*layers.Ethernet`: the first Ethernet layer, if any. -/
def Packet.LayerEthernet (packet : Packet) : Option Ethernet :=
  packet.findSome? (fun l => match l with
    | .ethernet eth => some eth
    | _ => none)

/-- The call `packet.Layer(layers.LayerTypeIPv6)` followed by the type assertion
to `*layers.IPv6`: the first IPv6 layer, if any. -/
def Packet.LayerIPv6 (packet : Packet) : Option IPv6 :=
  packet.findSome? (fun l => match l with
    | .ipv6 ip => some ip
    | _ => none)

/-- The call `packet.Layer(bpf.Srv6LayerType)` followed by the type assertion to
`*bpf.Srv6Layer`: the first SRv6 layer, if any. -/
def Packet.LayerSrv6 (packet : Packet) : Option Srv6Layer :=
  packet.findSome? (fun l => match l with
    | .srv6 srh => some srh
    | _ => none)

/-! ## `parse.go` -/

/-- The constant `MAX_SEGMENTLIST_ENTRIES`. -/
def MAX_SEGMENTLIST_ENTRIES : Nat := 10

/-- The record `ProbeData`.  `Segments` is the array
`[MAX_SEGMENTLIST_ENTRIES]string`, held as a list that `Parse` keeps at length
10. -/
structure ProbeData where
  H_source : String
  H_dest : String
  V6Srcaddr : String
  V6Dstaddr : String
  NextHdr : Nat
  HdrExtLen : Nat
  RoutingType : Nat
  SegmentsLeft : Nat
  LastEntry : Nat
  Flags : Nat
  Tag : Nat
  Segments : List String
  deriving DecidableEq, Repr

/-- The zero value of `ProbeData` (`var pd ProbeData`): empty strings, zero
numbers, ten empty segment slots. -/
def ProbeData.zero : ProbeData :=
  { H_source := "", H_dest := "", V6Srcaddr := "", V6Dstaddr := "", NextHdr := 0,
    HdrExtLen := 0, RoutingType := 0, SegmentsLeft := 0, LastEntry := 0, Flags := 0,
    Tag := 0, Segments := List.replicate MAX_SEGMENTLIST_ENTRIES "" }

/-- The loop `for idx := 0; idx < MAX_SEGMENTLIST_ENTRIES; idx++` of `Parse`,
by the number `remaining` of iterations the loop condition still allows, so that
`idx = MAX_SEGMENTLIST_ENTRIES - remaining`.  It stops early (`break`) at the
first `idx >= len(srv6.Segments)` and otherwise stores the text of segment `idx`
in slot `idx`. -/
def copySegments (segments : List IP) : Nat → List String → List String
  | 0, out => out
  | remaining + 1, out =>
    let idx := MAX_SEGMENTLIST_ENTRIES - (remaining + 1)
    if idx ≥ segments.length then out
    else copySegments segments remaining (out.set idx (IP.String (segments.getD idx [])))

/-- The function `Parse`.  `NewPacket` stands for
`gopacket.NewPacket(data, layers.LayerTypeEthernet, gopacket.Default)`, the
packet decoder of the library.  The result is Go's `(*ProbeData, error)`. -/
def Parse (NewPacket : List Nat → Packet) (data : List Nat) :
    Option ProbeData × Option String :=
  let pd := ProbeData.zero
  let packet := NewPacket data
  match packet.LayerEthernet with
  | none => (none, some "Could not parse a packet with Ethernet")
  | some eth =>
    let pd := { pd with H_dest := HardwareAddr.String eth.DstMAC }
    let pd := { pd with H_source := HardwareAddr.String eth.SrcMAC }
    match packet.LayerIPv6 with
    | none => (none, some "Could not parse a packet with IPv6")
    | some ipv6 =>
      let pd := { pd with V6Srcaddr := IP.String ipv6.SrcIP }
      let pd := { pd with V6Dstaddr := IP.String ipv6.DstIP }
      match packet.LayerSrv6 with
      | none => (none, some "Could not parse a packet with SRv6")
      | some srv6 =>
        let pd := { pd with NextHdr := srv6.NextHeader }
        let pd := { pd with HdrExtLen := srv6.HdrExtLen }
        let pd := { pd with RoutingType := srv6.RoutingType }
        let pd := { pd with SegmentsLeft := srv6.SegmentsLeft }
        let pd := { pd with LastEntry := srv6.LastEntry }
        let pd := { pd with Flags := srv6.Flags }
        let pd := { pd with Tag := srv6.Tag }
        let pd := { pd with
          Segments := copySegments srv6.Segments MAX_SEGMENTLIST_ENTRIES pd.Segments }
        (some pd, none)

/-! ## The SRv6 layer decoder (package `bpf`) -/

/-- Modelled from the spec: reading `n` addresses of 16 bytes each from the
buffer that follows the fixed part of the Segment Routing Header (step 3 of the
extension header decoder; the decoder of package `bpf` is not among the source
files). -/
def readSegments : Nat → List Nat → List IP
  | 0, _ => []
  | n + 1, b => b.take 16 :: readSegments n (b.drop 16)

/-- Modelled from the spec: the decoder of the layer `bpf.Srv6Layer`, which is
not among the source files.  On the bytes of the routing extension header it
fails unless the fixed 8-byte part `NextHeader | HdrExtLen | RoutingType |
SegmentsLeft | LastEntry | Flags | Tag(16)` is there and `RoutingType` is the
Segment Routing type 4; it takes `segmentCount = LastEntry + 1`, fails if fewer
than `segmentCount * 16` bytes follow, and otherwise reads that many 16-byte
addresses in wire order. -/
def decodeSrv6Layer (hdr : List Nat) : Option Srv6Layer :=
  match hdr with
  | nextHeader :: hdrExtLen :: routingType :: segmentsLeft :: lastEntry :: flags ::
      tagHi :: tagLo :: rest =>
    if routingType ≠ 4 then none
    else
      let segmentCount := lastEntry + 1
      if rest.length < segmentCount * 16 then none
      else some
        { NextHeader := nextHeader, HdrExtLen := hdrExtLen, RoutingType := routingType,
          SegmentsLeft := segmentsLeft, LastEntry := lastEntry, Flags := flags,
          Tag := tagHi * 256 + tagLo, Segments := readSegments segmentCount rest }
  | _ => none

/-- What the library's own Ethernet and IPv6 decoders make of a buffer: no
Ethernet layer; an Ethernet layer alone; Ethernet and IPv6 layers whose header
chain has no routing extension header; or Ethernet and IPv6 layers and the bytes
`hdr` that start at the routing extension header. -/
inductive Lower where
  | noEthernet
  | ethernet (eth : Ethernet)
  | ipv6 (eth : Ethernet) (ip : IPv6)
  | routing (eth : Ethernet) (ip : IPv6) (hdr : List Nat)
  deriving DecidableEq, Repr

/-- Modelled from the spec: the packet decoder with the SRv6 layer decoder of
package `bpf` (not among the source files) in place, a linear pipeline of the
link-layer, network-layer and extension-header decoders.  `lower` is the
library's decoding of the Ethernet and IPv6 headers; the routing extension
header it reaches is handed to `decodeSrv6Layer`, and a failing stage ends the
list of layers. -/
def NewPacket (lower : List Nat → Lower) (data : List Nat) : Packet :=
  match lower data with
  | .noEthernet => []
  | .ethernet eth => [.ethernet eth]
  | .ipv6 eth ip => [.ethernet eth, .ipv6 ip]
  | .routing eth ip hdr =>
    match decodeSrv6Layer hdr with
    | none => [.ethernet eth, .ipv6 ip]
    | some srh => [.ethernet eth, .ipv6 ip, .srv6 srh]

/-- The library's handling of 802.1Q tags (EtherType 0x8100, and 0x88a8 for
stacked tags): a tag of 4 bytes is stepped over and the EtherType it carries is
taken in turn; the first argument bounds the number of tags.  The result is the
EtherType that decides the next layer and the bytes of that layer. -/
def skipDot1Q : Nat → Nat → List Nat → Nat × List Nat
  | 0, etherType, payload => (etherType, payload)
  | fuel + 1, etherType, payload =>
    if (etherType = 0x8100 ∨ etherType = 0x88a8) ∧ payload.length ≥ 4 then
      skipDot1Q fuel (payload.getD 2 0 * 256 + payload.getD 3 0) (payload.drop 4)
    else (etherType, payload)

/-- A `lower` decoder for evaluation on concrete frames, after the library's
Ethernet and IPv6 decoders.  A buffer under 14 bytes has no Ethernet layer;
otherwise the Ethernet layer has the destination address (bytes 0 to 5) and the
source address (bytes 6 to 11), and 802.1Q tags are stepped over.  For EtherType
0x86DD an IPv6 layer is added: with empty addresses when fewer than 40 bytes
are left, otherwise with the source address at offset 8 and the destination at
offset 24 of the fixed header.  The payload of the IPv6 layer is cut to the
Payload Length field (bytes 4 and 5); a Payload Length of 0 ends the decoding,
and so does a Next Header (byte 6) other than 43.  With Next Header 43 the cut
payload is the routing extension header.  Encapsulations other than these
(LLC/SNAP, a hop-by-hop or other extension header ahead of the routing header)
are not followed: such a frame is reported with the layers found up to there. -/
def etherIPv6 (data : List Nat) : Lower :=
  if data.length < 14 then .noEthernet
  else
    let eth : Ethernet := { SrcMAC := (data.drop 6).take 6, DstMAC := data.take 6 }
    let next := skipDot1Q data.length (data.getD 12 0 * 256 + data.getD 13 0) (data.drop 14)
    if next.1 = 0x86dd then
      let header := next.2
      if header.length < 40 then .ipv6 eth { SrcIP := [], DstIP := [] }
      else
        let ip : IPv6 := { SrcIP := (header.drop 8).take 16, DstIP := (header.drop 24).take 16 }
        let length := header.getD 4 0 * 256 + header.getD 5 0
        if header.getD 6 0 = 43 ∧ length ≠ 0 then
          .routing eth ip ((header.drop 40).take length)
        else .ipv6 eth ip
    else .ethernet eth

/-- The record that `Parse` returns for a packet with the three layers (shown in
`Parse_of_layers`): addresses as text, the seven numbers of the SRv6 layer, and
the texts of its first ten segments followed by empty slots. -/
def recordOf (eth : Ethernet) (ipv6 : IPv6) (srv6 : Srv6Layer) : ProbeData :=
  { H_source := HardwareAddr.String eth.SrcMAC, H_dest := HardwareAddr.String eth.DstMAC,
    V6Srcaddr := IP.String ipv6.SrcIP, V6Dstaddr := IP.String ipv6.DstIP,
    NextHdr := srv6.NextHeader, HdrExtLen := srv6.HdrExtLen, RoutingType := srv6.RoutingType,
    SegmentsLeft := srv6.SegmentsLeft, LastEntry := srv6.LastEntry, Flags := srv6.Flags,
    Tag := srv6.Tag,
    Segments := (srv6.Segments.take MAX_SEGMENTLIST_ENTRIES).map IP.String ++
      List.replicate (MAX_SEGMENTLIST_ENTRIES - srv6.Segments.length) "" }

/-! ## Concrete frames -/

/-- An Ethernet II header: destination aa:bb:cc:dd:ee:ff, source
02:00:00:00:00:01, EtherType 0x86DD (IPv6). -/
def frameEthernet : List Nat :=
  [0xaa, 0xbb, 0xcc, 0xdd, 0xee, 0xff, 0x02, 0, 0, 0, 0, 0x01, 0x86, 0xdd]

/-- An IPv6 fixed header with Next Header 43 (Routing), source 2001:db8::1 and
destination 2001:db8::2. -/
def frameIPv6 : List Nat :=
  [0x60, 0, 0, 0, 0, 40, 43, 64,
   0x20, 0x01, 0x0d, 0xb8, 0, 0, 0, 0, 0, 0, 0, 0, 0, 0, 0, 1,
   0x20, 0x01, 0x0d, 0xb8, 0, 0, 0, 0, 0, 0, 0, 0, 0, 0, 0, 2]

/-- The segments fc00::3 and fc00::4 on the wire. -/
def frameSegments : List Nat :=
  [0xfc, 0, 0, 0, 0, 0, 0, 0, 0, 0, 0, 0, 0, 0, 0, 3,
   0xfc, 0, 0, 0, 0, 0, 0, 0, 0, 0, 0, 0, 0, 0, 0, 4]

/-- A frame with a Segment Routing Header: Next Header 59, Hdr Ext Len 4, Routing
Type 4, Segments Left 1, Last Entry 1, Flags 0, Tag 0x1234, two segments. -/
def frameSRv6 : List Nat :=
  frameEthernet ++ frameIPv6 ++ [59, 4, 4, 1, 1, 0, 0x12, 0x34] ++ frameSegments

/-- The record decoded from `frameSRv6`. -/
def recordSRv6 : ProbeData :=
  { H_source := "02:00:00:00:00:01", H_dest := "aa:bb:cc:dd:ee:ff",
    V6Srcaddr := "2001:db8::1", V6Dstaddr := "2001:db8::2", NextHdr := 59, HdrExtLen := 4,
    RoutingType := 4, SegmentsLeft := 1, LastEntry := 1, Flags := 0, Tag := 0x1234,
    Segments := ["fc00::3", "fc00::4", "", "", "", "", "", "", "", ""] }

/-- The frame `frameSRv6` with Routing Type 0 in place of 4. -/
def frameRoutingType0 : List Nat :=
  frameEthernet ++ frameIPv6 ++ [59, 4, 0, 1, 1, 0, 0x12, 0x34] ++ frameSegments

/-- The frame `frameSRv6` declaring Last Entry 2 (three segments) while carrying
two. -/
def frameShort : List Nat :=
  frameEthernet ++ frameIPv6 ++ [59, 6, 4, 1, 2, 0, 0x12, 0x34] ++ frameSegments

/-- An ARP frame: Ethernet II header with EtherType 0x0806 and a 28-byte ARP
request. -/
def frameARP : List Nat :=
  [0xff, 0xff, 0xff, 0xff, 0xff, 0xff, 0x02, 0, 0, 0, 0, 0x01, 0x08, 0x06,
   0, 1, 8, 0, 6, 4, 0, 1, 0x02, 0, 0, 0, 0, 0x01, 10, 0, 0, 1,
   0, 0, 0, 0, 0, 0, 10, 0, 0, 2]

/-- An IPv6 frame without routing header: Next Header 59 (no next header). -/
def frameNoSRH : List Nat :=
  frameEthernet ++
  [0x60, 0, 0, 0, 0, 0, 59, 64,
   0x20, 0x01, 0x0d, 0xb8, 0, 0, 0, 0, 0, 0, 0, 0, 0, 0, 0, 1,
   0x20, 0x01, 0x0d, 0xb8, 0, 0, 0, 0, 0, 0, 0, 0, 0, 0, 0, 2]

/-- The layers of `frameSRv6`. -/
def ethernetSRv6 : Ethernet :=
  { SrcMAC := [0x02, 0, 0, 0, 0, 0x01], DstMAC := [0xaa, 0xbb, 0xcc, 0xdd, 0xee, 0xff] }

/-- The IPv6 layer of `frameSRv6`. -/
def ipv6SRv6 : IPv6 :=
  { SrcIP := [0x20, 0x01, 0x0d, 0xb8, 0, 0, 0, 0, 0, 0, 0, 0, 0, 0, 0, 1],
    DstIP := [0x20, 0x01, 0x0d, 0xb8, 0, 0, 0, 0, 0, 0, 0, 0, 0, 0, 0, 2] }

/-- The SRv6 layer of `frameSRv6`. -/
def srv6SRv6 : Srv6Layer :=
  { NextHeader := 59, HdrExtLen := 4, RoutingType := 4, SegmentsLeft := 1, LastEntry := 1,
    Flags := 0, Tag := 0x1234,
    Segments := [[0xfc, 0, 0, 0, 0, 0, 0, 0, 0, 0, 0, 0, 0, 0, 0, 3],
                 [0xfc, 0, 0, 0, 0, 0, 0, 0, 0, 0, 0, 0, 0, 0, 0, 4]] }

/-- The segment fc00::(n+1) on the wire. -/
def segmentBytes (n : Nat) : List Nat := [0xfc, 0, 0, 0, 0, 0, 0, 0, 0, 0, 0, 0, 0, 0, 0, n + 1]

/-- An SRv6 layer with Last Entry 10 and the eleven segments fc00::1 to
fc00::b. -/
def srv6Eleven : Srv6Layer :=
  { NextHeader := 59, HdrExtLen := 22, RoutingType := 4, SegmentsLeft := 10, LastEntry := 10,
    Flags := 0, Tag := 0, Segments := (List.range 11).map segmentBytes }

/-- An IPv6 fixed header as `frameIPv6` with Payload Length 184, the length of a
Segment Routing Header with eleven segments (8 + 11 * 16). -/
def frameIPv6Eleven : List Nat :=
  [0x60, 0, 0, 0, 0, 184, 43, 64,
   0x20, 0x01, 0x0d, 0xb8, 0, 0, 0, 0, 0, 0, 0, 0, 0, 0, 0, 1,
   0x20, 0x01, 0x0d, 0xb8, 0, 0, 0, 0, 0, 0, 0, 0, 0, 0, 0, 2]

/-- A frame whose Segment Routing Header has Last Entry 10 and carries eleven
segments; the IPv6 Payload Length covers the whole header. -/
def frameEleven : List Nat :=
  frameEthernet ++ frameIPv6Eleven ++ [59, 22, 4, 10, 10, 0, 0, 0] ++
    ((List.range 11).map segmentBytes).flatten

/-! ## Lemmas on the textual forms -/

/-- The inner loop has left its range within the steps it is given: a step more
changes nothing once `16 ≤ j + 2 * fuel`. -/
theorem zeroRunEnd_step (p : List Nat) (fuel j : Nat) (h : 16 ≤ j + 2 * fuel) :
    zeroRunEnd p (fuel + 1) j = zeroRunEnd p fuel j := by
  induction fuel generalizing j with
  | zero =>
    have hj : ¬ (j < 16 ∧ p.getD j 0 = 0 ∧ p.getD (j + 1) 0 = 0) := by omega
    simp only [zeroRunEnd, hj, if_false]
  | succ n ih =>
    rw [zeroRunEnd, zeroRunEnd.eq_def p (n + 1) j]
    simp only
    split
    · exact ih (j + 2) (by omega)
    · rfl

/-- Eight steps are enough for the inner loop of `net.IP.String`. -/
theorem zeroRunEnd_fuel (p : List Nat) (n j : Nat) :
    zeroRunEnd p (8 + n) j = zeroRunEnd p 8 j := by
  induction n with
  | zero => rfl
  | succ n ih => rw [← ih, ← Nat.add_assoc, zeroRunEnd_step p (8 + n) j (by omega)]

theorem findZeroRun_step (p : List Nat) (fuel i : Nat) (best : Option (Nat × Nat))
    (h : 16 ≤ i + 2 * fuel) :
    findZeroRun p (fuel + 1) i best = findZeroRun p fuel i best := by
  induction fuel generalizing i best with
  | zero =>
    have hi : ¬ i < 16 := by omega
    simp only [findZeroRun, hi, if_false]
  | succ n ih =>
    rw [findZeroRun.eq_def p (n + 1 + 1) i best, findZeroRun.eq_def p (n + 1) i best]
    simp only
    split
    · split
      · rename_i hj
        exact ih _ _ (by omega)
      · exact ih _ _ (by omega)
    · rfl

/-- Eight steps are enough for the outer loop of `net.IP.String`. -/
theorem findZeroRun_fuel (p : List Nat) (n : Nat) :
    findZeroRun p (8 + n) 0 none = findZeroRun p 8 0 none := by
  induction n with
  | zero => rfl
  | succ n ih => rw [← ih, ← Nat.add_assoc, findZeroRun_step p (8 + n) 0 none (by omega)]

theorem printGroups_step (p : List Nat) (run : Option (Nat × Nat)) (fuel i : Nat)
    (b : List Char) (hrun : ∀ e0 e1, run = some (e0, e1) → e0 < e1)
    (h : 16 ≤ i + 2 * fuel) :
    printGroups p run (fuel + 1) i b = printGroups p run fuel i b := by
  induction fuel generalizing i b with
  | zero =>
    have hi : ¬ i < 16 := by omega
    simp only [printGroups, hi, if_false]
  | succ n ih =>
    rw [printGroups.eq_def p run (n + 1 + 1) i b, printGroups.eq_def p run (n + 1) i b]
    simp only
    split
    · split
      · rename_i e0 e1
        have hlt : e0 < e1 := hrun e0 e1 rfl
        split
        · split
          · rfl
          · exact ih _ _ (by omega)
        · exact ih _ _ (by omega)
      · exact ih _ _ (by omega)
    · rfl

/-- Eight steps are enough for the printing loop of `net.IP.String`, the zero run
being a proper one. -/
theorem printGroups_fuel (p : List Nat) (run : Option (Nat × Nat)) (n : Nat)
    (hrun : ∀ e0 e1, run = some (e0, e1) → e0 < e1) :
    printGroups p run (8 + n) 0 [] = printGroups p run 8 0 [] := by
  induction n with
  | zero => rfl
  | succ n ih =>
    rw [← ih, ← Nat.add_assoc, printGroups_step p run (8 + n) 0 [] hrun (by omega)]

theorem appendHex_length_lt (dst : List Char) (i : Nat) :
    dst.length < (appendHex dst i).length := by
  unfold appendHex
  split
  · simp
  · rename_i hi
    have hpos : 0 < i := Nat.pos_of_ne_zero hi
    have hmem : hexDigit (i % 16) ∈ ([7, 6, 5, 4, 3, 2, 1, 0] : List Nat).filterMap
        (fun j => if i / 16 ^ j > 0 then some (hexDigit (i / 16 ^ j % 16)) else none) := by
      rw [List.mem_filterMap]
      exact ⟨0, by simp, by simp [hpos]⟩
    have hlen := List.length_pos_of_mem hmem
    rw [List.length_append]
    omega

theorem appendHex_sep_length (b sep : List Char) (c : Prop) [Decidable c] (v : Nat) :
    b.length < (appendHex (if c then b ++ sep else b) v).length := by
  have h := appendHex_length_lt (if c then b ++ sep else b) v
  by_cases hc : c
  · simp only [hc, if_true, List.length_append] at h ⊢
    omega
  · simp only [hc, if_false] at h ⊢
    exact h

theorem printGroups_length_le (p : List Nat) (run : Option (Nat × Nat)) (fuel i : Nat)
    (b : List Char) : b.length ≤ (printGroups p run fuel i b).length := by
  induction fuel generalizing i b with
  | zero => simp [printGroups]
  | succ n ih =>
    unfold printGroups
    split
    · split
      · rename_i e0 e1
        split
        · split
          · simp
          · refine le_trans ?_ (ih _ _)
            have h := appendHex_length_lt (b ++ [':', ':']) (group16 p e1)
            rw [List.length_append] at h
            omega
        · exact le_trans (Nat.le_of_lt (appendHex_sep_length b [':'] (i > 0) _)) (ih _ _)
      · exact le_trans (Nat.le_of_lt (appendHex_sep_length b [':'] (i > 0) _)) (ih _ _)
    · exact le_refl _

theorem printGroups_ne_nil (p : List Nat) (run : Option (Nat × Nat)) :
    printGroups p run 8 0 [] ≠ [] := by
  intro hnil
  have hlen : (printGroups p run 8 0 []).length = 0 := by rw [hnil]; rfl
  unfold printGroups at hlen
  simp only [show (0 : Nat) < 16 by decide, if_true] at hlen
  split at hlen
  · rename_i e0 e1
    split at hlen
    · split at hlen
      · simp at hlen
      · have h1 := printGroups_length_le p (some (e0, e1)) 7 (e1 + 2)
          (appendHex ([] ++ [':', ':']) (group16 p e1))
        have h2 := appendHex_length_lt ([] ++ [':', ':']) (group16 p e1)
        omega
    · have h1 := printGroups_length_le p (some (e0, e1)) 7 (0 + 2)
        (appendHex (if 0 > 0 then [] ++ [':'] else []) (group16 p 0))
      have h2 := appendHex_sep_length [] [':'] (0 > 0) (group16 p 0)
      omega
  · have h1 := printGroups_length_le p none 7 (0 + 2)
      (appendHex (if 0 > 0 then [] ++ [':'] else []) (group16 p 0))
    have h2 := appendHex_sep_length [] [':'] (0 > 0) (group16 p 0)
    omega

theorem ipChars_ne_nil (ip : IP) : ipChars ip ≠ [] := by
  unfold ipChars
  split
  · simp
  · split
    · simp [dotted]
    · split
      · simp
      · exact printGroups_ne_nil ip _

/-- The text of an IP address is never empty. -/
theorem IP_String_ne_empty (ip : IP) : IP.String ip ≠ "" := by
  intro h
  have hd : (IP.String ip).data = [] := by rw [h]
  exact ipChars_ne_nil ip hd

/-- The bound on the number of tags is enough once it reaches a quarter of the
bytes left: a step more changes nothing. -/
theorem skipDot1Q_step (fuel etherType : Nat) (payload : List Nat)
    (h : payload.length < 4 * (fuel + 1)) :
    skipDot1Q (fuel + 1) etherType payload = skipDot1Q fuel etherType payload := by
  induction fuel generalizing etherType payload with
  | zero =>
    have hc : ¬ ((etherType = 0x8100 ∨ etherType = 0x88a8) ∧ payload.length ≥ 4) := by omega
    simp only [skipDot1Q, hc, if_false]
  | succ n ih =>
    rw [skipDot1Q.eq_def (n + 1 + 1) etherType payload, skipDot1Q.eq_def (n + 1) etherType payload]
    simp only
    split
    · exact ih _ _ (by rw [List.length_drop]; omega)
    · rfl

/-- The number of bytes of the frame is a sufficient bound on the number of
802.1Q tags in `etherIPv6`. -/
theorem skipDot1Q_fuel (n etherType : Nat) (payload : List Nat) :
    skipDot1Q (payload.length + n) etherType payload
      = skipDot1Q payload.length etherType payload := by
  induction n with
  | zero => rfl
  | succ n ih =>
    rw [← ih, ← Nat.add_assoc, skipDot1Q_step (payload.length + n) etherType payload (by omega)]

/-! ## Lemmas on the segment loop and on `Parse` -/

theorem copySegments_getElem? (segments : List IP) (n : Nat) (out : List String) (i : Nat)
    (hn : n ≤ MAX_SEGMENTLIST_ENTRIES) (hout : out.length = MAX_SEGMENTLIST_ENTRIES) :
    (copySegments segments n out)[i]? =
      if MAX_SEGMENTLIST_ENTRIES - n ≤ i ∧ i < segments.length ∧ i < MAX_SEGMENTLIST_ENTRIES
      then some (IP.String (segments.getD i [])) else out[i]? := by
  induction n generalizing out with
  | zero =>
    have : ¬ (MAX_SEGMENTLIST_ENTRIES - 0 ≤ i ∧ i < segments.length
        ∧ i < MAX_SEGMENTLIST_ENTRIES) := by omega
    simp only [copySegments, this, if_false]
  | succ n ih =>
    unfold copySegments
    simp only
    split
    · rename_i hge
      have : ¬ (MAX_SEGMENTLIST_ENTRIES - (n + 1) ≤ i ∧ i < segments.length
          ∧ i < MAX_SEGMENTLIST_ENTRIES) := by omega
      simp only [this, if_false]
    · rename_i hlt
      rw [ih _ (by omega) (by simpa using hout)]
      by_cases hi : i = MAX_SEGMENTLIST_ENTRIES - (n + 1)
      · have h1 : ¬ (MAX_SEGMENTLIST_ENTRIES - n ≤ i ∧ i < segments.length
            ∧ i < MAX_SEGMENTLIST_ENTRIES) := by omega
        have h2 : MAX_SEGMENTLIST_ENTRIES - (n + 1) ≤ i ∧ i < segments.length
            ∧ i < MAX_SEGMENTLIST_ENTRIES := by omega
        rw [if_neg h1, if_pos h2, hi, List.getElem?_set_self (by omega)]
      · rw [List.getElem?_set_ne (fun h => hi h.symm)]
        by_cases hc : MAX_SEGMENTLIST_ENTRIES - n ≤ i ∧ i < segments.length
            ∧ i < MAX_SEGMENTLIST_ENTRIES
        · have h2 : MAX_SEGMENTLIST_ENTRIES - (n + 1) ≤ i ∧ i < segments.length
              ∧ i < MAX_SEGMENTLIST_ENTRIES := by omega
          simp only [hc, h2, if_true]
        · have h2 : ¬ (MAX_SEGMENTLIST_ENTRIES - (n + 1) ≤ i ∧ i < segments.length
              ∧ i < MAX_SEGMENTLIST_ENTRIES) := by omega
          simp only [hc, h2, if_false]

/-- The segment loop run on the zero record: the texts of the first ten
segments, in order, followed by empty slots up to ten. -/
theorem copySegments_zero (segments : List IP) :
    copySegments segments MAX_SEGMENTLIST_ENTRIES ProbeData.zero.Segments =
      (segments.take MAX_SEGMENTLIST_ENTRIES).map IP.String ++
        List.replicate (MAX_SEGMENTLIST_ENTRIES - segments.length) "" := by
  apply List.ext_getElem?
  intro i
  rw [copySegments_getElem? _ _ _ _ (le_refl _) (by simp [ProbeData.zero])]
  simp only [ProbeData.zero, MAX_SEGMENTLIST_ENTRIES]
  by_cases h1 : i < segments.length
  · by_cases h2 : i < 10
    · have hc : 10 - 10 ≤ i ∧ i < segments.length ∧ i < 10 := by omega
      rw [if_pos hc, List.getElem?_append_left (by simp; omega), List.getElem?_map,
        List.getElem?_take_of_lt h2, List.getD_eq_getElem?_getD, List.getElem?_eq_getElem h1]
      rfl
    · have hc : ¬ (10 - 10 ≤ i ∧ i < segments.length ∧ i < 10) := by omega
      have hlen : ((List.map IP.String (List.take 10 segments)) ++
          List.replicate (10 - segments.length) "").length ≤ i := by
        rw [List.length_append, List.length_map, List.length_take, List.length_replicate]
        omega
      rw [if_neg hc, List.getElem?_eq_none (by simp; omega), List.getElem?_eq_none hlen]
  · have hc : ¬ (10 - 10 ≤ i ∧ i < segments.length ∧ i < 10) := by omega
    rw [if_neg hc, List.getElem?_append_right (by simp; omega)]
    simp only [List.getElem?_replicate, List.length_map, List.length_take]
    by_cases h2 : i < 10
    · rw [if_pos h2, if_pos (by omega)]
    · rw [if_neg h2, if_neg (by omega)]

theorem Parse_of_layers (NewPacket : List Nat → Packet) (data : List Nat) (eth : Ethernet)
    (ipv6 : IPv6) (srv6 : Srv6Layer) (he : (NewPacket data).LayerEthernet = some eth)
    (hi : (NewPacket data).LayerIPv6 = some ipv6) (hs : (NewPacket data).LayerSrv6 = some srv6) :
    Parse NewPacket data = (some (recordOf eth ipv6 srv6), none) := by
  simp only [Parse, he, hi, hs, recordOf]
  rw [← copySegments_zero]

theorem Parse_no_ethernet (NewPacket : List Nat → Packet) (data : List Nat)
    (he : (NewPacket data).LayerEthernet = none) :
    Parse NewPacket data = (none, some "Could not parse a packet with Ethernet") := by
  simp only [Parse, he]

theorem Parse_no_ipv6 (NewPacket : List Nat → Packet) (data : List Nat) (eth : Ethernet)
    (he : (NewPacket data).LayerEthernet = some eth) (hi : (NewPacket data).LayerIPv6 = none) :
    Parse NewPacket data = (none, some "Could not parse a packet with IPv6") := by
  simp only [Parse, he, hi]

theorem Parse_no_srv6 (NewPacket : List Nat → Packet) (data : List Nat) (eth : Ethernet)
    (ipv6 : IPv6) (he : (NewPacket data).LayerEthernet = some eth)
    (hi : (NewPacket data).LayerIPv6 = some ipv6) (hs : (NewPacket data).LayerSrv6 = none) :
    Parse NewPacket data = (none, some "Could not parse a packet with SRv6") := by
  simp only [Parse, he, hi, hs]

/-- A record comes only from a packet with all three layers. -/
theorem Parse_some_inv (NewPacket : List Nat → Packet) (data : List Nat) (pd : ProbeData)
    (h : (Parse NewPacket data).1 = some pd) :
    ∃ eth ipv6 srv6, (NewPacket data).LayerEthernet = some eth ∧
      (NewPacket data).LayerIPv6 = some ipv6 ∧ (NewPacket data).LayerSrv6 = some srv6 ∧
      pd = recordOf eth ipv6 srv6 := by
  cases he : (NewPacket data).LayerEthernet with
  | none => rw [Parse_no_ethernet _ _ he] at h; cases h
  | some eth =>
    cases hi : (NewPacket data).LayerIPv6 with
    | none => rw [Parse_no_ipv6 _ _ _ he hi] at h; cases h
    | some ipv6 =>
      cases hs : (NewPacket data).LayerSrv6 with
      | none => rw [Parse_no_srv6 _ _ _ _ he hi hs] at h; cases h
      | some srv6 =>
        rw [Parse_of_layers _ _ _ _ _ he hi hs] at h
        exact ⟨eth, ipv6, srv6, rfl, rfl, rfl, (Option.some.inj h).symm⟩

/-! ## Lemmas on the SRv6 layer decoder -/

theorem readSegments_length (n : Nat) (b : List Nat) : (readSegments n b).length = n := by
  induction n generalizing b with
  | zero => rfl
  | succ n ih => simp [readSegments, ih]

/-- Every layer the decoder returns has Routing Type 4 and `LastEntry + 1`
segments. -/
theorem decodeSrv6Layer_inv (hdr : List Nat) (srh : Srv6Layer)
    (h : decodeSrv6Layer hdr = some srh) :
    srh.RoutingType = 4 ∧ srh.Segments.length = srh.LastEntry + 1 := by
  unfold decodeSrv6Layer at h
  split at h
  · rename_i nh hel rt sl le fl t0 t1 rest
    by_cases hrt : rt ≠ 4
    · simp [hrt] at h
    · by_cases hlen : rest.length < (le + 1) * 16
      · simp [hlen] at h
      · have h4 : rt = 4 := not_not.mp hrt
        simp only [hrt, hlen, if_false] at h
        cases h
        exact ⟨h4, readSegments_length _ _⟩
  · cases h

/-- The decoder fails on a header whose third byte is not 4. -/
theorem decodeSrv6Layer_routingType (hdr : List Nat) (h : hdr[2]? ≠ some 4) :
    decodeSrv6Layer hdr = none := by
  cases hd : decodeSrv6Layer hdr with
  | none => rfl
  | some srh =>
    exfalso
    unfold decodeSrv6Layer at hd
    split at hd
    · rename_i nh hel rt sl le fl t0 t1 rest
      by_cases hrt : rt ≠ 4
      · simp [hrt] at hd
      · have h4 : rt = 4 := not_not.mp hrt
        apply h
        simp [h4]
    · cases hd

theorem readSegments_flatten (segments : List IP) (tail : List Nat)
    (h16 : ∀ seg ∈ segments, seg.length = 16) :
    readSegments segments.length (segments.flatten ++ tail) = segments := by
  induction segments with
  | nil => rfl
  | cons seg rest ih =>
    have hseg : seg.length = 16 := h16 seg (List.mem_cons_self _ _)
    have hrest : ∀ x ∈ rest, x.length = 16 := fun x hx => h16 x (List.mem_cons_of_mem _ hx)
    simp only [List.length_cons, readSegments, List.flatten_cons, List.append_assoc]
    rw [List.take_append_of_le_length (by omega), List.drop_append_of_le_length (by omega),
      ← hseg, List.take_length, List.drop_length, List.nil_append, ih hrest]

theorem flatten_length_sixteen (segments : List IP)
    (h16 : ∀ seg ∈ segments, seg.length = 16) :
    segments.flatten.length = segments.length * 16 := by
  induction segments with
  | nil => rfl
  | cons seg rest ih =>
    have hseg : seg.length = 16 := h16 seg (List.mem_cons_self _ _)
    have hrest : ∀ x ∈ rest, x.length = 16 := fun x hx => h16 x (List.mem_cons_of_mem _ hx)
    simp only [List.flatten_cons, List.length_append, List.length_cons, ih hrest, hseg]
    omega

/-- The decoder returns the fields of a well-formed header and its segments in
wire order: a header with Routing Type 4, Last Entry `lastEntry` and
`lastEntry + 1` segments of 16 bytes each, followed by any bytes. -/
theorem decodeSrv6Layer_wire_order (nextHeader hdrExtLen segmentsLeft lastEntry flags tagHi
    tagLo : Nat) (segments : List IP) (tail : List Nat)
    (h16 : ∀ seg ∈ segments, seg.length = 16) (hn : segments.length = lastEntry + 1) :
    decodeSrv6Layer (nextHeader :: hdrExtLen :: 4 :: segmentsLeft :: lastEntry :: flags ::
        tagHi :: tagLo :: (segments.flatten ++ tail)) =
      some { NextHeader := nextHeader, HdrExtLen := hdrExtLen, RoutingType := 4,
             SegmentsLeft := segmentsLeft, LastEntry := lastEntry, Flags := flags,
             Tag := tagHi * 256 + tagLo, Segments := segments } := by
  have hlen : ¬ (segments.flatten ++ tail).length < segments.length * 16 := by
    rw [List.length_append, flatten_length_sixteen segments h16]
    omega
  simp only [decodeSrv6Layer, ne_eq, not_true_eq_false, if_false, hlen, ← hn,
    readSegments_flatten segments tail h16]

theorem NewPacket_routing (lower : List Nat → Lower) (data : List Nat) (eth : Ethernet)
    (ip : IPv6) (hdr : List Nat) (hl : lower data = .routing eth ip hdr) :
    (NewPacket lower data).LayerEthernet = some eth ∧
      (NewPacket lower data).LayerIPv6 = some ip ∧
      (NewPacket lower data).LayerSrv6 = decodeSrv6Layer hdr := by
  simp only [NewPacket, hl]
  cases hd : decodeSrv6Layer hdr <;>
    simp [Packet.LayerEthernet, Packet.LayerIPv6, Packet.LayerSrv6, List.findSome?]

/-- An SRv6 layer of the packet is what the decoder made of the routing header. -/
theorem NewPacket_srv6_inv (lower : List Nat → Lower) (data : List Nat) (srh : Srv6Layer)
    (h : (NewPacket lower data).LayerSrv6 = some srh) :
    ∃ eth ip hdr, lower data = .routing eth ip hdr ∧ decodeSrv6Layer hdr = some srh := by
  cases hl : lower data with
  | noEthernet => simp [NewPacket, hl, Packet.LayerSrv6, List.findSome?] at h
  | ethernet eth => simp [NewPacket, hl, Packet.LayerSrv6, List.findSome?] at h
  | ipv6 eth ip => simp [NewPacket, hl, Packet.LayerSrv6, List.findSome?] at h
  | routing eth ip hdr =>
    rw [(NewPacket_routing lower data eth ip hdr hl).2.2] at h
    exact ⟨eth, ip, hdr, rfl, h⟩

/-! ## Lemmas on the shape of the segment array -/

theorem segmentSlots_length (segments : List IP) :
    ((segments.take MAX_SEGMENTLIST_ENTRIES).map IP.String ++
      List.replicate (MAX_SEGMENTLIST_ENTRIES - segments.length) "").length
      = MAX_SEGMENTLIST_ENTRIES := by
  rw [List.length_append, List.length_map, List.length_take, List.length_replicate]
  omega

theorem segmentSlots_populated (segments : List IP) :
    (((segments.take MAX_SEGMENTLIST_ENTRIES).map IP.String ++
      List.replicate (MAX_SEGMENTLIST_ENTRIES - segments.length) "").filter
        (fun s => decide (s ≠ ""))).length = min segments.length MAX_SEGMENTLIST_ENTRIES := by
  rw [List.filter_append]
  have h1 : ((segments.take MAX_SEGMENTLIST_ENTRIES).map IP.String).filter
      (fun s => decide (s ≠ "")) = (segments.take MAX_SEGMENTLIST_ENTRIES).map IP.String := by
    rw [List.filter_eq_self]
    intro a ha
    obtain ⟨x, _, rfl⟩ := List.mem_map.mp ha
    exact decide_eq_true (IP_String_ne_empty x)
  have h2 : (List.replicate (MAX_SEGMENTLIST_ENTRIES - segments.length) "").filter
      (fun s => decide (s ≠ "")) = [] := by
    rw [List.filter_eq_nil_iff]
    intro a ha
    have : a = "" := List.eq_of_mem_replicate ha
    simp [this]
  rw [h1, h2, List.append_nil, List.length_map, List.length_take, Nat.min_comm]

theorem segmentSlots_getElem?_lt (segments : List IP) (i : Nat) (seg : IP)
    (hseg : segments[i]? = some seg) (hi : i < MAX_SEGMENTLIST_ENTRIES) :
    ((segments.take MAX_SEGMENTLIST_ENTRIES).map IP.String ++
      List.replicate (MAX_SEGMENTLIST_ENTRIES - segments.length) "")[i]?
      = some (IP.String seg) := by
  have hlt : i < segments.length := by
    by_contra hge
    rw [List.getElem?_eq_none (Nat.le_of_not_lt hge)] at hseg
    cases hseg
  rw [List.getElem?_append_left (by rw [List.length_map, List.length_take]; omega),
    List.getElem?_map, List.getElem?_take_of_lt hi, hseg]
  rfl

theorem segmentSlots_getElem?_ge (segments : List IP) (i : Nat) (hge : segments.length ≤ i)
    (hi : i < MAX_SEGMENTLIST_ENTRIES) :
    ((segments.take MAX_SEGMENTLIST_ENTRIES).map IP.String ++
      List.replicate (MAX_SEGMENTLIST_ENTRIES - segments.length) "")[i]? = some "" := by
  rw [List.getElem?_append_right (by rw [List.length_map, List.length_take]; omega),
    List.getElem?_replicate, List.length_map, List.length_take]
  rw [if_pos (by omega)]

/-! ## The claims -/

/-- C1: every record `Parse` returns, on a packet whose SRv6 layer comes from the
layer decoder, has ten segment slots of which exactly
`min (LastEntry + 1) 10` are non-empty, `LastEntry` being the field of the record
itself: the slots below that count are non-empty and every slot from that count
on is the empty string. -/
theorem C1_populated_segments (lower : List Nat → Lower) (data : List Nat) (pd : ProbeData)
    (h : (Parse (NewPacket lower) data).1 = some pd) :
    pd.Segments.length = MAX_SEGMENTLIST_ENTRIES ∧
    (pd.Segments.filter (fun s => decide (s ≠ ""))).length
      = min (pd.LastEntry + 1) MAX_SEGMENTLIST_ENTRIES ∧
    (∀ i, i < min (pd.LastEntry + 1) MAX_SEGMENTLIST_ENTRIES →
      ∃ s, pd.Segments[i]? = some s ∧ s ≠ "") ∧
    (∀ i, min (pd.LastEntry + 1) MAX_SEGMENTLIST_ENTRIES ≤ i → i < MAX_SEGMENTLIST_ENTRIES →
      pd.Segments[i]? = some "") := by
  obtain ⟨eth, ip, srh, _, _, hs, rfl⟩ := Parse_some_inv _ _ _ h
  obtain ⟨_, _, hdr, _, hd⟩ := NewPacket_srv6_inv _ _ _ hs
  have hlen := (decodeSrv6Layer_inv hdr srh hd).2
  simp only [recordOf]
  rw [← hlen]
  refine ⟨segmentSlots_length _, segmentSlots_populated _, ?_, ?_⟩
  · intro i hi
    have hi1 : i < srh.Segments.length := lt_of_lt_of_le hi (Nat.min_le_left _ _)
    have hi2 : i < MAX_SEGMENTLIST_ENTRIES := lt_of_lt_of_le hi (Nat.min_le_right _ _)
    exact ⟨IP.String srh.Segments[i],
      segmentSlots_getElem?_lt _ i _ (List.getElem?_eq_getElem hi1) hi2, IP_String_ne_empty _⟩
  · intro i hge hi
    have : srh.Segments.length ≤ i := by
      rcases Nat.le_total srh.Segments.length MAX_SEGMENTLIST_ENTRIES with hle | hle
      · rwa [Nat.min_eq_left hle] at hge
      · rw [Nat.min_eq_right hle] at hge
        omega
    exact segmentSlots_getElem?_ge _ i this hi

theorem C1_populated_segments_witness :
    (Parse (NewPacket etherIPv6) frameSRv6).1 = some recordSRv6 ∧
    recordSRv6.Segments.length = MAX_SEGMENTLIST_ENTRIES ∧
    (recordSRv6.Segments.filter (fun s => decide (s ≠ ""))).length
      = min (recordSRv6.LastEntry + 1) MAX_SEGMENTLIST_ENTRIES ∧
    (∀ i, i < min (recordSRv6.LastEntry + 1) MAX_SEGMENTLIST_ENTRIES →
      ∃ s, recordSRv6.Segments[i]? = some s ∧ s ≠ "") ∧
    (∀ i, min (recordSRv6.LastEntry + 1) MAX_SEGMENTLIST_ENTRIES ≤ i →
      i < MAX_SEGMENTLIST_ENTRIES → recordSRv6.Segments[i]? = some "") :=
  ⟨by decide, C1_populated_segments etherIPv6 frameSRv6 recordSRv6 (by decide)⟩

/-- C2: for a frame whose packet has an Ethernet, an IPv6 and an SRv6 layer, the
SRv6 layer having `LastEntry = k` with `k ≤ 9` and `k + 1` segments, `Parse`
succeeds, slot `i` of the record is the text of segment `i` for every `i ≤ k`,
and slot `i` is the empty string for every `i` with `k < i ≤ 9`. -/
theorem C2_segments_in_wire_order (NewPacket : List Nat → Packet) (data : List Nat)
    (eth : Ethernet) (ip : IPv6) (srh : Srv6Layer) (k : Nat)
    (he : (NewPacket data).LayerEthernet = some eth)
    (hi : (NewPacket data).LayerIPv6 = some ip)
    (hs : (NewPacket data).LayerSrv6 = some srh)
    (hk : k ≤ 9) (hle : srh.LastEntry = k) (hlen : srh.Segments.length = k + 1) :
    ∃ pd, Parse NewPacket data = (some pd, none) ∧ pd.LastEntry = k ∧
      (∀ i, i ≤ k → ∃ seg, srh.Segments[i]? = some seg ∧
        pd.Segments[i]? = some (IP.String seg)) ∧
      (∀ i, k < i → i ≤ 9 → pd.Segments[i]? = some "") := by
  refine ⟨recordOf eth ip srh, Parse_of_layers _ _ _ _ _ he hi hs, hle, ?_, ?_⟩
  · intro i hik
    have hi1 : i < srh.Segments.length := by omega
    exact ⟨srh.Segments[i], List.getElem?_eq_getElem hi1,
      segmentSlots_getElem?_lt _ i _ (List.getElem?_eq_getElem hi1)
        (by simp only [MAX_SEGMENTLIST_ENTRIES]; omega)⟩
  · intro i hki hi9
    exact segmentSlots_getElem?_ge _ i (by omega)
      (by simp only [MAX_SEGMENTLIST_ENTRIES]; omega)

theorem C2_segments_in_wire_order_witness :
    (NewPacket etherIPv6 frameSRv6).LayerEthernet = some ethernetSRv6 ∧
    (NewPacket etherIPv6 frameSRv6).LayerIPv6 = some ipv6SRv6 ∧
    (NewPacket etherIPv6 frameSRv6).LayerSrv6 = some srv6SRv6 ∧
    ∃ pd, Parse (NewPacket etherIPv6) frameSRv6 = (some pd, none) ∧ pd.LastEntry = 1 ∧
      (∀ i, i ≤ 1 → ∃ seg, srv6SRv6.Segments[i]? = some seg ∧
        pd.Segments[i]? = some (IP.String seg)) ∧
      (∀ i, 1 < i → i ≤ 9 → pd.Segments[i]? = some "") :=
  ⟨by decide, by decide, by decide,
    C2_segments_in_wire_order (NewPacket etherIPv6) frameSRv6 ethernetSRv6 ipv6SRv6 srv6SRv6 1
      (by decide) (by decide) (by decide) (by decide) (by decide) (by decide)⟩

/-- C3: for a frame whose packet has an Ethernet, an IPv6 and an SRv6 layer, the
SRv6 layer having `LastEntry ≥ 10` and `LastEntry + 1` segments (more than ten),
`Parse` succeeds and the ten segment slots of the record are exactly the texts of
the first ten segments, in order; later segments have no slot. -/
theorem C3_truncation_to_ten (NewPacket : List Nat → Packet) (data : List Nat)
    (eth : Ethernet) (ip : IPv6) (srh : Srv6Layer)
    (he : (NewPacket data).LayerEthernet = some eth)
    (hi : (NewPacket data).LayerIPv6 = some ip)
    (hs : (NewPacket data).LayerSrv6 = some srh)
    (hle : 10 ≤ srh.LastEntry) (hlen : srh.Segments.length = srh.LastEntry + 1) :
    ∃ pd, Parse NewPacket data = (some pd, none) ∧
      pd.Segments.length = MAX_SEGMENTLIST_ENTRIES ∧
      pd.Segments = (srh.Segments.take MAX_SEGMENTLIST_ENTRIES).map IP.String ∧
      (∀ i, i < MAX_SEGMENTLIST_ENTRIES → ∃ seg, srh.Segments[i]? = some seg ∧
        pd.Segments[i]? = some (IP.String seg)) := by
  refine ⟨recordOf eth ip srh, Parse_of_layers _ _ _ _ _ he hi hs, segmentSlots_length _, ?_, ?_⟩
  · have h0 : MAX_SEGMENTLIST_ENTRIES - srh.Segments.length = 0 := by
      simp only [MAX_SEGMENTLIST_ENTRIES]; omega
    simp only [recordOf, h0, List.replicate_zero, List.append_nil]
  · intro i hi10
    have hi1 : i < srh.Segments.length := by
      simp only [MAX_SEGMENTLIST_ENTRIES] at hi10; omega
    exact ⟨srh.Segments[i], List.getElem?_eq_getElem hi1,
      segmentSlots_getElem?_lt _ i _ (List.getElem?_eq_getElem hi1) hi10⟩

set_option maxRecDepth 8000 in
theorem C3_truncation_to_ten_witness :
    (NewPacket etherIPv6 frameEleven).LayerEthernet = some ethernetSRv6 ∧
    (NewPacket etherIPv6 frameEleven).LayerIPv6 = some ipv6SRv6 ∧
    (NewPacket etherIPv6 frameEleven).LayerSrv6 = some srv6Eleven ∧
    ∃ pd, Parse (NewPacket etherIPv6) frameEleven = (some pd, none) ∧
      pd.Segments.length = MAX_SEGMENTLIST_ENTRIES ∧
      pd.Segments = (srv6Eleven.Segments.take MAX_SEGMENTLIST_ENTRIES).map IP.String ∧
      (∀ i, i < MAX_SEGMENTLIST_ENTRIES → ∃ seg, srv6Eleven.Segments[i]? = some seg ∧
        pd.Segments[i]? = some (IP.String seg)) :=
  ⟨by decide, by decide, by decide,
    C3_truncation_to_ten (NewPacket etherIPv6) frameEleven ethernetSRv6 ipv6SRv6 srv6Eleven
      (by decide) (by decide) (by decide) (by decide) (by decide)⟩

/-- C4: round trip.  For a frame whose packet carries an Ethernet layer, an IPv6
layer and an SRv6 layer with given field values, a record returned by `Parse` has
`H_source` and `H_dest` the texts of the source and of the destination MAC (not
swapped), `V6Srcaddr` and `V6Dstaddr` the texts of the source and of the
destination IPv6 address, and each of the seven numeric fields equal to the field
of the same name of the SRv6 layer. -/
theorem C4_round_trip (NewPacket : List Nat → Packet) (data : List Nat)
    (eth : Ethernet) (ip : IPv6) (srh : Srv6Layer) (pd : ProbeData)
    (he : (NewPacket data).LayerEthernet = some eth)
    (hi : (NewPacket data).LayerIPv6 = some ip)
    (hs : (NewPacket data).LayerSrv6 = some srh)
    (h : (Parse NewPacket data).1 = some pd) :
    pd.H_source = HardwareAddr.String eth.SrcMAC ∧
    pd.H_dest = HardwareAddr.String eth.DstMAC ∧
    pd.V6Srcaddr = IP.String ip.SrcIP ∧
    pd.V6Dstaddr = IP.String ip.DstIP ∧
    pd.NextHdr = srh.NextHeader ∧
    pd.HdrExtLen = srh.HdrExtLen ∧
    pd.RoutingType = srh.RoutingType ∧
    pd.SegmentsLeft = srh.SegmentsLeft ∧
    pd.LastEntry = srh.LastEntry ∧
    pd.Flags = srh.Flags ∧
    pd.Tag = srh.Tag := by
  rw [Parse_of_layers _ _ _ _ _ he hi hs] at h
  cases h
  exact ⟨rfl, rfl, rfl, rfl, rfl, rfl, rfl, rfl, rfl, rfl, rfl⟩

theorem C4_round_trip_witness :
    (NewPacket etherIPv6 frameSRv6).LayerEthernet = some ethernetSRv6 ∧
    (NewPacket etherIPv6 frameSRv6).LayerIPv6 = some ipv6SRv6 ∧
    (NewPacket etherIPv6 frameSRv6).LayerSrv6 = some srv6SRv6 ∧
    (Parse (NewPacket etherIPv6) frameSRv6).1 = some recordSRv6 ∧
    recordSRv6.H_source = HardwareAddr.String ethernetSRv6.SrcMAC ∧
    recordSRv6.H_dest = HardwareAddr.String ethernetSRv6.DstMAC ∧
    recordSRv6.V6Srcaddr = IP.String ipv6SRv6.SrcIP ∧
    recordSRv6.V6Dstaddr = IP.String ipv6SRv6.DstIP ∧
    recordSRv6.NextHdr = srv6SRv6.NextHeader ∧
    recordSRv6.HdrExtLen = srv6SRv6.HdrExtLen ∧
    recordSRv6.RoutingType = srv6SRv6.RoutingType ∧
    recordSRv6.SegmentsLeft = srv6SRv6.SegmentsLeft ∧
    recordSRv6.LastEntry = srv6SRv6.LastEntry ∧
    recordSRv6.Flags = srv6SRv6.Flags ∧
    recordSRv6.Tag = srv6SRv6.Tag :=
  ⟨by decide, by decide, by decide, by decide,
    C4_round_trip (NewPacket etherIPv6) frameSRv6 ethernetSRv6 ipv6SRv6 srv6SRv6 recordSRv6
      (by decide) (by decide) (by decide) (by decide)⟩

/-- C5: atomicity.  For every input buffer (and every packet decoder) `Parse`
returns either a record and no error, or no record and an error; in particular
an error never comes with a record, although the local record already holds the
Ethernet and IPv6 texts when a later layer is missing. -/
theorem C5_atomic_result (NewPacket : List Nat → Packet) (data : List Nat) :
    ((Parse NewPacket data).1.isSome = true ∧ (Parse NewPacket data).2 = none) ∨
    ((Parse NewPacket data).1 = none ∧ (Parse NewPacket data).2.isSome = true) := by
  cases he : (NewPacket data).LayerEthernet with
  | none => rw [Parse_no_ethernet _ _ he]; exact Or.inr ⟨rfl, rfl⟩
  | some eth =>
    cases hi : (NewPacket data).LayerIPv6 with
    | none => rw [Parse_no_ipv6 _ _ _ he hi]; exact Or.inr ⟨rfl, rfl⟩
    | some ipv6 =>
      cases hs : (NewPacket data).LayerSrv6 with
      | none => rw [Parse_no_srv6 _ _ _ _ he hi hs]; exact Or.inr ⟨rfl, rfl⟩
      | some srv6 => rw [Parse_of_layers _ _ _ _ _ he hi hs]; exact Or.inl ⟨rfl, rfl⟩

/-- C6: for a frame whose packet has an Ethernet layer and no IPv6 layer (an ARP
frame, say), `Parse` returns no record and the error "Could not parse a packet
with IPv6". -/
theorem C6_no_ipv6_layer (NewPacket : List Nat → Packet) (data : List Nat) (eth : Ethernet)
    (he : (NewPacket data).LayerEthernet = some eth)
    (hi : (NewPacket data).LayerIPv6 = none) :
    Parse NewPacket data = (none, some "Could not parse a packet with IPv6") :=
  Parse_no_ipv6 NewPacket data eth he hi

theorem C6_no_ipv6_layer_witness :
    (NewPacket etherIPv6 frameARP).LayerEthernet
      = some { SrcMAC := [0x02, 0, 0, 0, 0, 0x01],
               DstMAC := [0xff, 0xff, 0xff, 0xff, 0xff, 0xff] } ∧
    (NewPacket etherIPv6 frameARP).LayerIPv6 = none ∧
    Parse (NewPacket etherIPv6) frameARP = (none, some "Could not parse a packet with IPv6") :=
  ⟨by decide, by decide,
    C6_no_ipv6_layer (NewPacket etherIPv6) frameARP
      { SrcMAC := [0x02, 0, 0, 0, 0, 0x01], DstMAC := [0xff, 0xff, 0xff, 0xff, 0xff, 0xff] }
      (by decide) (by decide)⟩

/-- C7: for a frame whose packet has an Ethernet and an IPv6 layer and no SRv6
layer, `Parse` returns no record and the error "Could not parse a packet with
SRv6". -/
theorem C7_no_srv6_layer (NewPacket : List Nat → Packet) (data : List Nat) (eth : Ethernet)
    (ip : IPv6) (he : (NewPacket data).LayerEthernet = some eth)
    (hi : (NewPacket data).LayerIPv6 = some ip)
    (hs : (NewPacket data).LayerSrv6 = none) :
    Parse NewPacket data = (none, some "Could not parse a packet with SRv6") :=
  Parse_no_srv6 NewPacket data eth ip he hi hs

theorem C7_no_srv6_layer_witness :
    (NewPacket etherIPv6 frameNoSRH).LayerEthernet = some ethernetSRv6 ∧
    (NewPacket etherIPv6 frameNoSRH).LayerIPv6 = some ipv6SRv6 ∧
    (NewPacket etherIPv6 frameNoSRH).LayerSrv6 = none ∧
    Parse (NewPacket etherIPv6) frameNoSRH
      = (none, some "Could not parse a packet with SRv6") :=
  ⟨by decide, by decide, by decide,
    C7_no_srv6_layer (NewPacket etherIPv6) frameNoSRH ethernetSRv6 ipv6SRv6
      (by decide) (by decide) (by decide)⟩

/-- C8: on a packet whose SRv6 layer comes from the layer decoder, every record
`Parse` returns has `RoutingType` 4; and when the Ethernet and IPv6 layers are
decoded and the routing extension header reached has a Routing Type other than 4,
`Parse` returns no record and the error "Could not parse a packet with SRv6". -/
theorem C8_routing_type_four (lower : List Nat → Lower) (data : List Nat) :
    (∀ pd, (Parse (NewPacket lower) data).1 = some pd → pd.RoutingType = 4) ∧
    (∀ eth ip hdr, lower data = .routing eth ip hdr → hdr[2]? ≠ some 4 →
      Parse (NewPacket lower) data = (none, some "Could not parse a packet with SRv6")) := by
  constructor
  · intro pd h
    obtain ⟨eth, ip, srh, _, _, hs, rfl⟩ := Parse_some_inv _ _ _ h
    obtain ⟨_, _, hdr, _, hd⟩ := NewPacket_srv6_inv _ _ _ hs
    exact (decodeSrv6Layer_inv hdr srh hd).1
  · intro eth ip hdr hl hrt
    obtain ⟨he, hi, hs⟩ := NewPacket_routing lower data eth ip hdr hl
    rw [decodeSrv6Layer_routingType hdr hrt] at hs
    exact Parse_no_srv6 _ _ eth ip he hi hs

theorem C8_routing_type_four_witness :
    (Parse (NewPacket etherIPv6) frameSRv6).1 = some recordSRv6 ∧
    recordSRv6.RoutingType = 4 ∧
    etherIPv6 frameRoutingType0
      = .routing ethernetSRv6 ipv6SRv6 ([59, 4, 0, 1, 1, 0, 0x12, 0x34] ++ frameSegments) ∧
    ([59, 4, 0, 1, 1, 0, 0x12, 0x34] ++ frameSegments)[2]? ≠ some 4 ∧
    Parse (NewPacket etherIPv6) frameRoutingType0
      = (none, some "Could not parse a packet with SRv6") :=
  ⟨by decide, (C8_routing_type_four etherIPv6 frameSRv6).1 recordSRv6 (by decide),
    by decide, by decide,
    (C8_routing_type_four etherIPv6 frameRoutingType0).2 ethernetSRv6 ipv6SRv6
      ([59, 4, 0, 1, 1, 0, 0x12, 0x34] ++ frameSegments) (by decide) (by decide)⟩

/-- C9: when the Ethernet and IPv6 layers are decoded and the Segment Routing
Header reached declares `LastEntry = k` while fewer than `k + 1` whole 16-byte
segments follow its fixed part, `Parse` returns no record and the error "Could
not parse a packet with SRv6". -/
theorem C9_short_segment_list (lower : List Nat → Lower) (data : List Nat) (eth : Ethernet)
    (ip : IPv6) (nextHeader hdrExtLen routingType segmentsLeft k flags tagHi tagLo : Nat)
    (rest : List Nat)
    (hl : lower data = .routing eth ip
      (nextHeader :: hdrExtLen :: routingType :: segmentsLeft :: k :: flags :: tagHi :: tagLo
        :: rest))
    (hshort : rest.length / 16 < k + 1) :
    Parse (NewPacket lower) data = (none, some "Could not parse a packet with SRv6") := by
  obtain ⟨he, hi, hs⟩ := NewPacket_routing lower data eth ip _ hl
  have hd : decodeSrv6Layer (nextHeader :: hdrExtLen :: routingType :: segmentsLeft :: k ::
      flags :: tagHi :: tagLo :: rest) = none := by
    have hlt : rest.length < (k + 1) * 16 := by omega
    simp only [decodeSrv6Layer, hlt, if_true, ite_self]
  rw [hd] at hs
  exact Parse_no_srv6 _ _ eth ip he hi hs

theorem C9_short_segment_list_witness :
    etherIPv6 frameShort
      = .routing ethernetSRv6 ipv6SRv6 (59 :: 6 :: 4 :: 1 :: 2 :: 0 :: 0x12 :: 0x34 ::
          frameSegments) ∧
    frameSegments.length / 16 < 2 + 1 ∧
    Parse (NewPacket etherIPv6) frameShort
      = (none, some "Could not parse a packet with SRv6") :=
  ⟨by decide, by decide,
    C9_short_segment_list etherIPv6 frameShort ethernetSRv6 ipv6SRv6 59 6 4 1 2 0 0x12 0x34
      frameSegments (by decide) (by decide)⟩

/-- C10: the failure of `Parse` is that of the earliest missing layer in the
order Ethernet, IPv6, SRv6.  For every input and packet decoder: without an
Ethernet layer the error is "Could not parse a packet with Ethernet", whatever
the IPv6 and SRv6 layers are; with an Ethernet layer and without an IPv6 layer
it is "Could not parse a packet with IPv6", whatever the SRv6 layer is; and
`Parse` returns a record and no error if and only if all three layers are
present. -/
theorem C10_earliest_missing_layer (NewPacket : List Nat → Packet) (data : List Nat) :
    ((NewPacket data).LayerEthernet = none →
      Parse NewPacket data = (none, some "Could not parse a packet with Ethernet")) ∧
    ((NewPacket data).LayerEthernet.isSome = true → (NewPacket data).LayerIPv6 = none →
      Parse NewPacket data = (none, some "Could not parse a packet with IPv6")) ∧
    (((Parse NewPacket data).1.isSome = true ∧ (Parse NewPacket data).2 = none) ↔
      ((NewPacket data).LayerEthernet.isSome = true ∧ (NewPacket data).LayerIPv6.isSome = true
        ∧ (NewPacket data).LayerSrv6.isSome = true)) := by
  refine ⟨Parse_no_ethernet _ _, ?_, ?_⟩
  · intro he hi
    obtain ⟨eth, he⟩ := Option.isSome_iff_exists.mp he
    exact Parse_no_ipv6 _ _ eth he hi
  · cases he : (NewPacket data).LayerEthernet with
    | none => rw [Parse_no_ethernet _ _ he]; simp
    | some eth =>
      cases hi : (NewPacket data).LayerIPv6 with
      | none => rw [Parse_no_ipv6 _ _ _ he hi]; simp
      | some ipv6 =>
        cases hs : (NewPacket data).LayerSrv6 with
        | none => rw [Parse_no_srv6 _ _ _ _ he hi hs]; simp
        | some srv6 => rw [Parse_of_layers _ _ _ _ _ he hi hs]; simp

theorem C10_earliest_missing_layer_witness :
    (Packet.LayerEthernet [Layer.ipv6 ipv6SRv6, Layer.srv6 srv6SRv6] = none ∧
      Parse (fun _ => [Layer.ipv6 ipv6SRv6, Layer.srv6 srv6SRv6]) frameSRv6
        = (none, some "Could not parse a packet with Ethernet")) ∧
    (Packet.LayerIPv6 [Layer.ethernet ethernetSRv6, Layer.srv6 srv6SRv6] = none ∧
      Parse (fun _ => [Layer.ethernet ethernetSRv6, Layer.srv6 srv6SRv6]) frameSRv6
        = (none, some "Could not parse a packet with IPv6")) ∧
    ((Parse (NewPacket etherIPv6) frameSRv6).1.isSome = true ∧
      (Parse (NewPacket etherIPv6) frameSRv6).2 = none) ∧
    ((NewPacket etherIPv6 frameSRv6).LayerEthernet.isSome = true ∧
      (NewPacket etherIPv6 frameSRv6).LayerIPv6.isSome = true ∧
      (NewPacket etherIPv6 frameSRv6).LayerSrv6.isSome = true) :=
  ⟨⟨by decide,
      (C10_earliest_missing_layer (fun _ => [Layer.ipv6 ipv6SRv6, Layer.srv6 srv6SRv6])
        frameSRv6).1 (by decide)⟩,
    ⟨by decide,
      (C10_earliest_missing_layer (fun _ => [Layer.ethernet ethernetSRv6, Layer.srv6 srv6SRv6])
        frameSRv6).2.1 (by decide) (by decide)⟩,
    (C10_earliest_missing_layer (NewPacket etherIPv6) frameSRv6).2.2.mpr
      ⟨by decide, by decide, by decide⟩,
    (C10_earliest_missing_layer (NewPacket etherIPv6) frameSRv6).2.2.mp
      ⟨by decide, by decide⟩⟩

end Fluvia
